import Mathlib

/-!
Shallow embedding of the PCAI video pipeline (src/services/video_generator.py and
src/routers/tts.py), with theorems checking the specification claims about the
chunked video-assembly algorithm, its fallback strategies and the job-state machine.

Modelling conventions:
* the filesystem is an association list from path to file bytes (both Strings);
* Python exceptions are an explicit error type; a function that can raise returns
  an Except paired with the state it leaves behind (object attributes and the
  filesystem survive a raised exception);
* external tools (speech synthesis, the ffprobe duration probe, the ffmpeg concat
  invocation, the moviepy chunk encoder) are oracles supplied in an Env record;
* durations are rationals; the Python float literal 3.0 is the rational 3.
-/

namespace PCAI

/-- Python exception values raised on the code paths we model. -/
inductive PyError where
  | nameError (name : String)
  | valueError (msg : String)
deriving DecidableEq

/-- The message Python attaches to an exception (str(e)). -/
def pyErrorStr : PyError → String
  | .nameError n => "name \x27" ++ n ++ "\x27 is not defined"
  | .valueError m => m

/-- The filesystem: an association list from path to file content. -/
abbrev FS := List (String × String)

/-- os.path.exists.  The empty string never names an existing file. -/
def fsExists (fs : FS) (p : String) : Bool :=
  (p != "") && fs.any (fun e => e.1 == p)

/-- Read a file's content, if present. -/
def fsRead (fs : FS) (p : String) : Option String :=
  (fs.find? (fun e => e.1 == p)).map Prod.snd

/-- Create or overwrite a file. -/
def fsWrite (fs : FS) (p c : String) : FS :=
  (p, c) :: fs.filter (fun e => e.1 != p)

/-- os.remove (a no-op here on a missing path; the code guards with os.path.exists). -/
def fsRemove (fs : FS) (p : String) : FS :=
  fs.filter (fun e => e.1 != p)

/-- os.rename: move the content at src to dst. -/
def fsRename (fs : FS) (src dst : String) : FS :=
  match fsRead fs src with
  | some c => fsWrite (fsRemove fs src) dst c
  | none => fs

/-- State carried by a VideoGenerator run: the filesystem, the self.temp_files
cleanup list, plus three history fields that only record what happened and never
influence control flow: every path ever registered into temp_files, every argument
list the ffmpeg concat subprocess was started with, and the chunk-path list the
concatenation step (_combine_chunks) was invoked on. -/
structure VGState where
  fs : FS
  temp_files : List String
  registered : List String
  ffmpegCalls : List (List String)
  concatInput : Option (List String)
deriving DecidableEq

/-- Behaviour of the external collaborators:
ttsSpeech gives the bytes returned by TTSProvider.generate_speech, none meaning the
call raised; ffmpegConcatExit is the concat subprocess exit code, none meaning
creating the subprocess raised; ffprobe maps an audio path to none (non-zero exit or
raise), some none (exit 0 but unparseable stdout) or some (some d) (parsed duration);
chunkWriteOk says whether write_videofile succeeds for a given chunk index. -/
structure Env where
  ttsSpeech : String → Option String
  ffmpegConcatExit : Option Nat
  ffprobe : String → Option (Option Rat)
  chunkWriteOk : Nat → Bool

/-- tempfile.gettempdir(). -/
def tempDir : String := "/tmp"

/-- The output directory (OUTPUT_FOLDER default "./output"). -/
def outputDir : String := "./output"

/-- Chunk video path chosen in _process_chunk: os.path.join(temp_dir, f"chunk_{chunk_idx}.mp4"). -/
def chunkVideoPath (chunk_idx : Nat) : String :=
  tempDir ++ "/chunk_" ++ toString chunk_idx ++ ".mp4"

/-- The slide identifier f"chunk{chunk_idx}_slide{i}" passed to _generate_audio_for_slide. -/
def slideId (chunk_idx i : Nat) : String :=
  "chunk" ++ toString chunk_idx ++ "_slide" ++ toString i

/-- Audio artifact path chosen in _generate_audio_for_slide: os.path.join(temp_dir, f"{slide_id}_audio.mp3"). -/
def audioPath (slide_id : String) : String :=
  tempDir ++ "/" ++ slide_id ++ "_audio.mp3"

/-- self.temp_files.append(path); the registered history field records it as well. -/
def registerTemp (st : VGState) (p : String) : VGState :=
  { st with temp_files := st.temp_files ++ [p], registered := st.registered ++ [p] }

/-- Names bound at module level of services/video_generator.py (its imports and the
class itself).  VideoFileClip is NOT among them: line 8 imports only ImageClip,
AudioFileClip and concatenate_videoclips from moviepy.editor. -/
def videoGeneratorModuleNames : List String :=
  ["os", "tempfile", "asyncio", "subprocess", "json", "List",
   "ImageClip", "AudioFileClip", "concatenate_videoclips", "TTSProvider",
   "VideoGenerator"]

/-- _calculate_optimal_chunk_size. -/
def calculate_optimal_chunk_size (total_slides : Nat) : Nat :=
  if total_slides ≤ 5 then total_slides
  else if total_slides ≤ 15 then 5
  else 8

/-- _get_audio_duration: ffprobe the file; on exit 0 with parseable stdout return the
parsed value, otherwise (non-zero exit, raise, or float() parse failure) fall through
to the default 3.0. -/
def get_audio_duration (env : Env) (audio_path : String) : Rat :=
  match env.ffprobe audio_path with
  | some (some d) => d
  | _ => 3

/-- The whitespace characters str.strip() removes (ASCII range). -/
def isPyWhitespace (c : Char) : Bool :=
  c == ' ' || c == '\t' || c == '\n' || c == '\r' || c == '\x0b' || c == '\x0c'

/-- The guard "if not transcript.strip()": true iff the text is empty or
whitespace-only. -/
def isBlank (s : String) : Bool :=
  s.data.all isPyWhitespace

/-- _generate_audio_for_slide: empty/whitespace-only transcript returns "" at once;
a synthesis failure is caught and also returns ""; otherwise the returned bytes are
written to a temp mp3 whose path is registered for cleanup and returned. -/
def generate_audio_for_slide (env : Env) (st : VGState) (transcript slide_id : String) :
    String × VGState :=
  if isBlank transcript then ("", st)
  else
    match env.ttsSpeech transcript with
    | none => ("", st)
    | some bytes =>
        let p := audioPath slide_id
        (p, registerTemp { st with fs := fsWrite st.fs p bytes } p)

/-- The audio-generation loop at the top of _process_chunk: one audio path (possibly
"") per transcript, threading the state, slide index counting from i0. -/
def genAudios (env : Env) (chunk_idx : Nat) : VGState → List String → Nat → List String × VGState
  | st, [], _ => ([], st)
  | st, t :: ts, i =>
      let r := generate_audio_for_slide env st t (slideId chunk_idx i)
      let rest := genAudios env chunk_idx r.2 ts (i + 1)
      (r.1 :: rest.1, rest.2)

/-- One clip built in _process_chunk: the still image shown for the computed duration,
with the audio file attached when it exists (silent otherwise). -/
structure SlideClip where
  image : String
  duration : Rat
  audio : Option String
deriving DecidableEq

/-- The clip-construction loop of _process_chunk over zip(slide_images, audio_files):
a slide whose image path does not exist is skipped; the duration is probed only when
the audio path exists, else the 3.0 default; audio is attached only when it exists. -/
def buildClips (env : Env) (fs : FS) : List (String × String) → List SlideClip
  | [] => []
  | (img, aud) :: rest =>
      if fsExists fs img then
        { image := img,
          duration := if fsExists fs aud then get_audio_duration env aud else 3,
          audio := if fsExists fs aud then some aud else none } :: buildClips env fs rest
      else buildClips env fs rest

/-- An injective-enough encoding of one clip, standing for its rendered bytes. -/
def clipStr (c : SlideClip) : String :=
  c.image ++ "|" ++ toString c.duration ++ "|" ++ (c.audio.getD "-")

/-- The bytes write_videofile produces for a clip sequence (fps 24, libx264/aac,
crf 23, yuv420p, preset fast — the fixed encoding profile). -/
def renderClips (clips : List SlideClip) : String :=
  "h264[" ++ String.intercalate ";" (clips.map clipStr) ++ "]"

/-- _process_chunk: register the chunk video path, generate the audio files, build
the clips, and if any clip survived write the chunk video (some chunk_video_path on
success).  A raise from write_videofile is caught by the except and returns None;
everything registered or written up to that point remains. -/
def process_chunk (env : Env) (st : VGState) (slide_images transcripts : List String)
    (chunk_idx : Nat) : Option String × VGState :=
  let chunk_video_path := chunkVideoPath chunk_idx
  let st1 := registerTemp st chunk_video_path
  let ga := genAudios env chunk_idx st1 transcripts 0
  let clips := buildClips env ga.2.fs (slide_images.zip ga.1)
  if clips.isEmpty then (some chunk_video_path, ga.2)
  else if env.chunkWriteOk chunk_idx then
    (some chunk_video_path,
     { ga.2 with fs := fsWrite ga.2.fs chunk_video_path (renderClips clips) })
  else (none, ga.2)

/-- os.path.abspath; every path the code passes here is already absolute. -/
def absPath (p : String) : String := p

/-- Content of the concat manifest: one file \x27path\x27 line per chunk. -/
def manifestContent (chunk_paths : List String) : String :=
  String.join (chunk_paths.map (fun p => "file \x27" ++ absPath p ++ "\x27\n"))

/-- Bytes produced by the ffmpeg stream-copy concat: the chunk streams in order. -/
def streamCopyContent (fs : FS) (chunk_paths : List String) : String :=
  "copy[" ++ String.join (chunk_paths.map (fun p => (fsRead fs p).getD "")) ++ "]"

/-- Bytes produced by a moviepy re-encode join of the chunks that exist. -/
def reencodeContent (fs : FS) (chunk_paths : List String) : String :=
  "h264[" ++ String.join (chunk_paths.map (fun p => (fsRead fs p).getD "")) ++ "]"

/-- _combine_with_moviepy: iterate the chunk paths, loading each existing one with
VideoFileClip.  VideoFileClip is not a module-level name (it was never imported), so
the first existing chunk path raises NameError; if no chunk path exists the clips
list stays empty and the function returns without writing anything. -/
def combine_with_moviepy (st : VGState) (chunk_paths : List String) (output_path : String) :
    Except PyError Unit × VGState :=
  if chunk_paths.any (fun p => fsExists st.fs p) then
    if videoGeneratorModuleNames.contains "VideoFileClip" then
      let c := reencodeContent st.fs (chunk_paths.filter (fun p => fsExists st.fs p))
      (.ok (), { st with fs := fsWrite st.fs output_path c })
    else (.error (.nameError "VideoFileClip"), st)
  else (.ok (), st)

/-- The fallback sequence on a non-zero ffmpeg exit: _combine_with_moviepy runs
inside the try block, so if it raises, the outer except catches that raise and calls
_combine_with_moviepy once more, whose raise then propagates. -/
def fallback_twice (st : VGState) (chunk_paths : List String) (output_path : String) :
    Except PyError Unit × VGState :=
  let r1 := combine_with_moviepy st chunk_paths output_path
  match r1.1 with
  | .ok _ => (.ok (), r1.2)
  | .error _ => combine_with_moviepy r1.2 chunk_paths output_path

/-- _combine_chunks: no chunks is a no-op; one chunk is os.rename to the output path;
for two or more chunks write the manifest (registered for cleanup), run the ffmpeg
stream-copy concat, and on a non-zero exit run the fallback sequence.  A raise when
starting ffmpeg itself goes straight to the except and a single fallback call. -/
def combine_chunks (env : Env) (st : VGState) (chunk_paths : List String)
    (output_path : String) : Except PyError Unit × VGState :=
  let st := { st with concatInput := some chunk_paths }
  match chunk_paths with
  | [] => (.ok (), st)
  | [p] => (.ok (), { st with fs := fsRename st.fs p output_path })
  | _ :: _ :: _ =>
      let concat_file := tempDir ++ "/concat_list.txt"
      let st1 := registerTemp st concat_file
      let st2 := { st1 with fs := fsWrite st1.fs concat_file (manifestContent chunk_paths) }
      match env.ffmpegConcatExit with
      | some 0 =>
          (.ok (), { st2 with
            ffmpegCalls := st2.ffmpegCalls ++ [chunk_paths],
            fs := fsWrite st2.fs output_path (streamCopyContent st2.fs chunk_paths) })
      | some _ =>
          let st3 := { st2 with ffmpegCalls := st2.ffmpegCalls ++ [chunk_paths] }
          fallback_twice st3 chunk_paths output_path
      | none =>
          let st3 := { st2 with ffmpegCalls := st2.ffmpegCalls ++ [chunk_paths] }
          combine_with_moviepy st3 chunk_paths output_path

/-- _cleanup_temp_files: remove each registered path that still exists (failures only
logged) and reset self.temp_files to the empty list. -/
def cleanup_temp_files (st : VGState) : VGState :=
  { st with fs := st.temp_files.foldl fsRemove st.fs, temp_files := [] }

/-- The per-chunk append in create_video: the chunk path joins all_video_clips only
when _process_chunk returned a path and that path exists on disk. -/
def chunkContrib (st : VGState) : Option String → List String
  | some p => if fsExists st.fs p then [p] else []
  | none => []

/-- The chunk loop of create_video, structurally recursive on a fuel that create_video
instantiates with the slide count (each iteration consumes at least one slide, so
that fuel always suffices): slice off the next chunk of images and transcripts,
process it, keep its path when it materialized, recurse on the rest. -/
def chunkLoopAux (env : Env) (s : Nat) :
    Nat → VGState → List String → List String → Nat → List String × VGState
  | 0, st, _, _, _ => ([], st)
  | _, st, [], _, _ => ([], st)
  | fuel + 1, st, imgs, ts, idx =>
      let pr := process_chunk env st (imgs.take s) (ts.take s) idx
      let contrib := chunkContrib pr.2 pr.1
      let rest := chunkLoopAux env s fuel pr.2 (imgs.drop s) (ts.drop s) (idx + 1)
      (contrib ++ rest.1, rest.2)

/-- The enumerate(range(0, len(slide_images), s)) loop of create_video. -/
def chunkLoop (env : Env) (s : Nat) (st : VGState) (imgs ts : List String) : List String × VGState :=
  chunkLoopAux env s imgs.length st imgs ts 0

/-- The successive slices slide_images[i:i+s] for i in range(0, len, s), i.e. the
chunk decomposition the loop enumerates. -/
def chunkSlicesAux (s : Nat) {α : Type} : Nat → List α → List (List α)
  | 0, _ => []
  | _, [] => []
  | fuel + 1, l => l.take s :: chunkSlicesAux s fuel (l.drop s)

/-- The list of chunks create_video cuts the slide list into. -/
def chunkSlices (s : Nat) {α : Type} (l : List α) : List (List α) :=
  chunkSlicesAux s l.length l

/-- create_video: compute the output path, plan the chunk size, run the chunk loop,
combine the materialized chunk videos when there are any, then clean up and return
the output path.  With zero slides the planner returns 0 and range(0, 0, 0) raises
ValueError before the loop body runs; an exception propagating out of _combine_chunks
skips both the cleanup call and the return. -/
def create_video (env : Env) (st : VGState) (slide_images transcripts : List String)
    (output_filename : String) : Except PyError String × VGState :=
  let output_path := outputDir ++ "/" ++ output_filename
  let s := calculate_optimal_chunk_size slide_images.length
  if s = 0 then (.error (.valueError "range() arg 3 must not be zero"), st)
  else
    let lp := chunkLoop env s st slide_images transcripts
    let all_video_clips := lp.1
    if all_video_clips.isEmpty then
      (.ok output_path, cleanup_temp_files lp.2)
    else
      let cb := combine_chunks env lp.2 all_video_clips output_path
      match cb.1 with
      | .error e => (.error e, cb.2)
      | .ok _ => (.ok output_path, cleanup_temp_files cb.2)

/-!
Embedding of src/routers/tts.py: the on-disk job-status store, the background
pipeline of process_pptx_background, and the status / download endpoints.
-/

/-- One job-status record as serialized to job_results/{job_id}.json.  Keys absent
from the Python dict are modelled as none. -/
structure JobRecord where
  status : String
  message : String
  progress : Option Nat
  job_id : Option String
  video_path : Option String
  download_url : Option String
deriving DecidableEq

/-- The record load_job_status builds when no status file exists. -/
def unknownRecord : JobRecord :=
  { status := "unknown", message := "Job not found", progress := none,
    job_id := none, video_path := none, download_url := none }

/-- The job_results directory: job id to last-written record. -/
abbrev JobStore := List (String × JobRecord)

/-- save_job_status: (over)write job_results/{job_id}.json. -/
def save_job_status (store : JobStore) (job_id : String) (r : JobRecord) : JobStore :=
  (job_id, r) :: store.filter (fun e => e.1 != job_id)

/-- load_job_status: read the status file if it exists, else the unknown record. -/
def load_job_status (store : JobStore) (job_id : String) : JobRecord :=
  match store.find? (fun e => e.1 == job_id) with
  | some e => e.2
  | none => unknownRecord

/-- GET /job-status/{job_id}: returns load_job_status without further checks. -/
def get_job_status (store : JobStore) (job_id : String) : JobRecord :=
  load_job_status store job_id

/-- The initial record process_pptx saves before scheduling the background task. -/
def initialRecord (job_id : String) : JobRecord :=
  { status := "processing", message := "Starting processing", progress := some 0,
    job_id := some job_id, video_path := none, download_url := none }

/-- The record written by the except branch of process_pptx_background. -/
def errorRecord (job_id msg : String) : JobRecord :=
  { status := "error", message := "Error processing PPTX: " ++ msg, progress := some 0,
    job_id := some job_id, video_path := none, download_url := none }

/-- Outcomes of the three extraction stages that run before the video stage: each
either returns its value or raises with a message. -/
structure PipeEnv where
  extractText : Except String (List String)
  genTranscript : List String → Except String (List String)
  extractImages : Except String (List String)
  videoEnv : Env

/-- process_pptx_background: the ordered list of job records it saves, in write
order, together with the VideoGenerator state it leaves behind.  Each stage first
writes its milestone record and then runs; any raise jumps to the except branch,
which writes the error record (status error, progress 0). -/
def process_pptx_background (penv : PipeEnv) (vst : VGState) (job_id : String) :
    List JobRecord × VGState :=
  let r10 : JobRecord :=
    { status := "processing", message := "Extracting text from slides",
      progress := some 10, job_id := some job_id, video_path := none, download_url := none }
  match penv.extractText with
  | .error e => ([r10, errorRecord job_id e], vst)
  | .ok slide_texts =>
    let r30 := { r10 with message := "Generating transcripts with AI", progress := some 30 }
    match penv.genTranscript slide_texts with
    | .error e => ([r10, r30, errorRecord job_id e], vst)
    | .ok transcripts =>
      let r50 := { r30 with message := "Extracting slide images", progress := some 50 }
      match penv.extractImages with
      | .error e => ([r10, r30, r50, errorRecord job_id e], vst)
      | .ok slide_images =>
        let r70 := { r50 with message := "Generating video with voiceovers", progress := some 70 }
        let cv := create_video penv.videoEnv vst slide_images transcripts (job_id ++ ".mp4")
        match cv.1 with
        | .error e => ([r10, r30, r50, r70, errorRecord job_id (pyErrorStr e)], cv.2)
        | .ok video_path =>
          let r100 := { r70 with
            status := "completed"
            message := "Video generation complete"
            progress := some 100
            video_path := some video_path
            download_url := some ("/api/tts/download/" ++ job_id) }
          ([r10, r30, r50, r70, r100], cv.2)

/-- Whether every stage of the background run succeeds (no unhandled exception). -/
def stagesOk (penv : PipeEnv) (vst : VGState) (job_id : String) : Bool :=
  match penv.extractText with
  | .error _ => false
  | .ok slide_texts =>
    match penv.genTranscript slide_texts with
    | .error _ => false
    | .ok transcripts =>
      match penv.extractImages with
      | .error _ => false
      | .ok slide_images =>
        match (create_video penv.videoEnv vst slide_images transcripts (job_id ++ ".mp4")).1 with
        | .ok _ => true
        | .error _ => false

/-- All job records written to the store over one run, in write order: the initial
record saved by process_pptx followed by the background task writes. -/
def jobTrace (penv : PipeEnv) (vst : VGState) (job_id : String) : List JobRecord :=
  initialRecord job_id :: (process_pptx_background penv vst job_id).1

/-- The progress values of a record trace. -/
def progressesOf (trace : List JobRecord) : List Nat :=
  trace.filterMap (fun r => r.progress)

/-- The store contents after a run: every record of the trace saved in order. -/
def storeAfterRun (store : JobStore) (job_id : String) (trace : List JobRecord) : JobStore :=
  trace.foldl (fun s r => save_job_status s job_id r) store

/-- The successful response of the download endpoint. -/
structure FileResp where
  path : String
  media_type : String
  filename : String
deriving DecidableEq

/-- GET /download/{job_id}: 404 "Video not available" unless the record is completed
and carries a video_path; 404 "Video file not found" when that path is not on disk;
otherwise a FileResponse for the recorded path. -/
def download_video (store : JobStore) (fs : FS) (job_id : String) :
    Except (Nat × String) FileResp :=
  let js := load_job_status store job_id
  if js.status == "completed" then
    match js.video_path with
    | some p =>
        if fsExists fs p then
          .ok { path := p, media_type := "video/mp4", filename := job_id ++ ".mp4" }
        else .error (404, "Video file not found")
    | none => .error (404, "Video not available")
  else .error (404, "Video not available")

/-!
Concrete fixtures used by witnesses and counterexamples.
-/

/-- Decidable equality of Except values, for evaluating results on concrete runs. -/
instance instDecEqExcept {ε α : Type} [DecidableEq ε] [DecidableEq α] :
    DecidableEq (Except ε α)
  | .ok a, .ok b =>
      if h : a = b then .isTrue (by rw [h]) else .isFalse (by simp [h])
  | .error a, .error b =>
      if h : a = b then .isTrue (by rw [h]) else .isFalse (by simp [h])
  | .ok _, .error _ => .isFalse (by simp)
  | .error _, .ok _ => .isFalse (by simp)

/-- A fresh VideoGenerator state over an empty filesystem. -/
def emptyState : VGState :=
  { fs := [], temp_files := [], registered := [], ffmpegCalls := [], concatInput := none }

/-- An environment where speech synthesis raises, ffprobe fails and the ffmpeg
concat exits 0. -/
def envPlain : Env :=
  { ttsSpeech := fun _ => none, ffmpegConcatExit := some 0,
    ffprobe := fun _ => none, chunkWriteOk := fun _ => true }

/-- An environment identical to envPlain except that the ffmpeg concat exits 1. -/
def envConcatFails : Env :=
  { ttsSpeech := fun _ => none, ffmpegConcatExit := some 1,
    ffprobe := fun _ => none, chunkWriteOk := fun _ => true }

/-- Two chunk videos already on disk, as _combine_chunks receives them. -/
def twoChunkFs : FS := [(chunkVideoPath 0, "AAA"), (chunkVideoPath 1, "BBB")]

/-- The state _combine_chunks starts from in the forced-ffmpeg-failure scenario. -/
def twoChunkSt : VGState := { emptyState with fs := twoChunkFs }

/-- Forcing the multiplexing tool to fail on two existing chunks. -/
def c1Run : Except PyError Unit × VGState :=
  combine_chunks envConcatFails twoChunkSt [chunkVideoPath 0, chunkVideoPath 1]
    (outputDir ++ "/final.mp4")

/-- A six-slide deck whose images all exist. -/
def sixImages : List String :=
  ["a.png", "b.png", "c.png", "d.png", "e.png", "f.png"]

/-- The six slide images on disk. -/
def sixImageFs : FS :=
  [("a.png", "A"), ("b.png", "B"), ("c.png", "C"), ("d.png", "D"), ("e.png", "E"), ("f.png", "F")]

/-- Six empty narration texts (silent slides). -/
def sixEmptyTexts : List String := ["", "", "", "", "", ""]

/-- A fresh generator state with the six slide images on disk. -/
def sixSt : VGState := { emptyState with fs := sixImageFs }

/-- A full create_video run on six slides with the ffmpeg concat forced to fail:
two chunks (sizes 5 and 1) are rendered, then concatenation is attempted. -/
def c2Run : Except PyError String × VGState :=
  create_video envConcatFails sixSt sixImages sixEmptyTexts "final.mp4"

/-- create_video invoked on an empty slide deck. -/
def c3Run : Except PyError String × VGState :=
  create_video envPlain emptyState [] [] "final.mp4"

/-- A pipeline whose extraction stages all succeed: one slide of text, one empty
transcript, one slide image path (not on disk). -/
def pipeOkEnv : PipeEnv :=
  { extractText := .ok ["hello"],
    genTranscript := fun _ => .ok [""],
    extractImages := .ok ["slide1.png"],
    videoEnv := envPlain }

/-- A pipeline whose first stage (text extraction) raises. -/
def pipeFailEnv : PipeEnv :=
  { extractText := .error "bad pptx",
    genTranscript := fun _ => .ok [""],
    extractImages := .ok ["slide1.png"],
    videoEnv := envPlain }

/-!
Helper lemmas.
-/

theorem fsExists_nil (p : String) : fsExists [] p = false := by
  simp [fsExists]

theorem fsRemove_nil (p : String) : fsRemove [] p = [] := rfl

theorem foldl_fsRemove_nil (l : List String) : l.foldl fsRemove [] = [] := by
  induction l with
  | nil => rfl
  | cons a l ih => simpa [fsRemove_nil] using ih

theorem any_filter_ne (fs : FS) (p : String) :
    (fs.filter (fun e => e.1 != p)).any (fun e => e.1 == p) = false := by
  induction fs with
  | nil => rfl
  | cons e fs ih =>
      by_cases h : e.1 = p <;> simp [List.filter_cons, h, ih]

theorem fsExists_fsRemove_self (fs : FS) (p : String) :
    fsExists (fsRemove fs p) p = false := by
  simp [fsExists, fsRemove, any_filter_ne]

theorem fsExists_fsRemove_of_not (fs : FS) (p q : String) (h : fsExists fs q = false) :
    fsExists (fsRemove fs p) q = false := by
  simp only [fsExists, fsRemove, Bool.and_eq_false_iff] at h ⊢
  rcases h with h | h
  · exact Or.inl h
  · refine Or.inr ?_
    simp only [List.any_eq_false] at h ⊢
    intro e he
    exact h e (List.mem_of_mem_filter he)

theorem fsExists_foldl_fsRemove_of_not (l : List String) (fs : FS) (q : String)
    (h : fsExists fs q = false) : fsExists (l.foldl fsRemove fs) q = false := by
  induction l generalizing fs with
  | nil => exact h
  | cons a l ih => exact ih _ (fsExists_fsRemove_of_not _ _ _ h)

theorem fsExists_foldl_fsRemove_mem (l : List String) :
    ∀ (fs : FS) (q : String), q ∈ l → fsExists (l.foldl fsRemove fs) q = false := by
  induction l with
  | nil => intro fs q h; cases h
  | cons a l ih =>
      intro fs q h
      rcases List.mem_cons.mp h with h | h
      · subst h
        exact fsExists_foldl_fsRemove_of_not l (fsRemove fs q) q (fsExists_fsRemove_self fs q)
      · exact ih (fsRemove fs a) q h

theorem cleanup_clears (st : VGState) (q : String) (h : q ∈ st.temp_files) :
    fsExists (cleanup_temp_files st).fs q = false := by
  simp only [cleanup_temp_files]
  exact fsExists_foldl_fsRemove_mem st.temp_files st.fs q h

theorem cleanup_registered (st : VGState) :
    (cleanup_temp_files st).registered = st.registered := rfl

theorem cleanup_clears_registered (st : VGState) (h : st.temp_files = st.registered) :
    ∀ q ∈ (cleanup_temp_files st).registered, fsExists (cleanup_temp_files st).fs q = false := by
  intro q hq
  rw [cleanup_registered, ← h] at hq
  exact cleanup_clears st q hq

theorem registerTemp_tr (st : VGState) (p : String) (h : st.temp_files = st.registered) :
    (registerTemp st p).temp_files = (registerTemp st p).registered := by
  simp [registerTemp, h]

theorem gafs_tr (env : Env) (st : VGState) (t sid : String)
    (h : st.temp_files = st.registered) :
    (generate_audio_for_slide env st t sid).2.temp_files
      = (generate_audio_for_slide env st t sid).2.registered := by
  unfold generate_audio_for_slide
  by_cases hb : isBlank t
  · simpa [hb] using h
  · rcases henv : env.ttsSpeech t with _ | bytes
    · simpa [hb, henv] using h
    · simpa [hb, henv, registerTemp] using h

theorem genAudios_tr (env : Env) (ci : Nat) :
    ∀ (ts : List String) (st : VGState) (i : Nat), st.temp_files = st.registered →
      (genAudios env ci st ts i).2.temp_files = (genAudios env ci st ts i).2.registered := by
  intro ts
  induction ts with
  | nil => intro st i h; exact h
  | cons t ts ih =>
      intro st i h
      simp only [genAudios]
      exact ih _ _ (gafs_tr env st t (slideId ci i) h)

theorem process_chunk_tr (env : Env) (st : VGState) (imgs ts : List String) (idx : Nat)
    (h : st.temp_files = st.registered) :
    (process_chunk env st imgs ts idx).2.temp_files
      = (process_chunk env st imgs ts idx).2.registered := by
  unfold process_chunk
  have h1 := genAudios_tr env idx ts (registerTemp st (chunkVideoPath idx)) 0
    (registerTemp_tr st _ h)
  by_cases hc : (buildClips env (genAudios env idx (registerTemp st (chunkVideoPath idx)) ts 0).2.fs
      (imgs.zip (genAudios env idx (registerTemp st (chunkVideoPath idx)) ts 0).1)).isEmpty
  · simpa [hc] using h1
  · by_cases hw : env.chunkWriteOk idx
    · simpa [hc, hw] using h1
    · simpa [hc, hw] using h1

theorem chunkLoopAux_tr (env : Env) (s : Nat) :
    ∀ (fuel : Nat) (st : VGState) (imgs ts : List String) (idx : Nat),
      st.temp_files = st.registered →
      (chunkLoopAux env s fuel st imgs ts idx).2.temp_files
        = (chunkLoopAux env s fuel st imgs ts idx).2.registered := by
  intro fuel
  induction fuel with
  | zero => intro st imgs ts idx h; simpa [chunkLoopAux] using h
  | succ fuel ih =>
      intro st imgs ts idx h
      cases imgs with
      | nil => simpa [chunkLoopAux] using h
      | cons im imgs =>
          simp only [chunkLoopAux]
          exact ih _ _ _ _ (process_chunk_tr env st _ _ idx h)

theorem combine_with_moviepy_tr (st : VGState) (chunk_paths : List String) (out : String)
    (h : st.temp_files = st.registered) :
    (combine_with_moviepy st chunk_paths out).2.temp_files
      = (combine_with_moviepy st chunk_paths out).2.registered := by
  unfold combine_with_moviepy
  by_cases ha : chunk_paths.any (fun p => fsExists st.fs p)
  · by_cases hv : videoGeneratorModuleNames.contains "VideoFileClip"
    · simpa [ha, hv] using h
    · simpa [ha, hv] using h
  · simpa [ha] using h

theorem fallback_twice_tr (st : VGState) (chunk_paths : List String) (out : String)
    (h : st.temp_files = st.registered) :
    (fallback_twice st chunk_paths out).2.temp_files
      = (fallback_twice st chunk_paths out).2.registered := by
  unfold fallback_twice
  rcases hr : (combine_with_moviepy st chunk_paths out).1 with e | u
  · simp only [hr]
    exact combine_with_moviepy_tr _ _ _ (combine_with_moviepy_tr _ _ _ h)
  · simp only [hr]
    exact combine_with_moviepy_tr _ _ _ h

theorem combine_chunks_tr (env : Env) (st : VGState) (chunk_paths : List String) (out : String)
    (h : st.temp_files = st.registered) :
    (combine_chunks env st chunk_paths out).2.temp_files
      = (combine_chunks env st chunk_paths out).2.registered := by
  unfold combine_chunks
  match chunk_paths with
  | [] => exact h
  | [p] => exact h
  | p :: q :: rest =>
      rcases hff : env.ffmpegConcatExit with _ | rc
      · simp only [hff]
        exact combine_with_moviepy_tr _ _ _ (registerTemp_tr _ _ h)
      · match rc with
        | 0 =>
            simp only [hff]
            exact registerTemp_tr _ _ h
        | rc + 1 =>
            simp only [hff]
            exact fallback_twice_tr _ _ _ (registerTemp_tr _ _ h)

theorem fsRead_fsWrite_self (fs : FS) (p c : String) :
    fsRead (fsWrite fs p c) p = some c := by
  simp [fsRead, fsWrite]

theorem any_filter_write (fs : FS) (p q : String) (h : q ≠ p) :
    (fs.filter (fun e => e.1 != p)).any (fun e => e.1 == q)
      = fs.any (fun e => e.1 == q) := by
  induction fs with
  | nil => rfl
  | cons e fs ih =>
      by_cases hep : e.1 = p
      · have hq : (e.1 == q) = false := by
          rw [hep]; exact beq_eq_false_iff_ne.mpr (Ne.symm h)
        have hne : ¬((e.1 != p) = true) := by simp [hep]
        rw [List.filter_cons, if_neg hne, ih, List.any_cons, hq, Bool.false_or]
      · have hne : (e.1 != p) = true := by simp [hep]
        rw [List.filter_cons, if_pos hne, List.any_cons, List.any_cons, ih]

theorem fsExists_fsWrite_ne (fs : FS) (p c q : String) (h : q ≠ p) :
    fsExists (fsWrite fs p c) q = fsExists fs q := by
  simp only [fsExists, fsWrite, List.any_cons]
  rw [any_filter_write fs p q h]
  have hpq : (p == q) = false := beq_eq_false_iff_ne.mpr (Ne.symm h)
  simp [hpq]

theorem buildClips_images (env : Env) (fs : FS) :
    ∀ pairs : List (String × String),
      (buildClips env fs pairs).map (fun c => c.image)
        = (pairs.map Prod.fst).filter (fun i => fsExists fs i) := by
  intro pairs
  induction pairs with
  | nil => rfl
  | cons pr rest ih =>
      obtain ⟨img, aud⟩ := pr
      by_cases hi : fsExists fs img = true
      · simp [buildClips, hi, List.filter_cons, ih]
      · simp only [Bool.not_eq_true] at hi
        simp [buildClips, hi, List.filter_cons, ih]

theorem buildClips_nil (env : Env) (fs : FS) :
    ∀ pairs : List (String × String), (∀ pr ∈ pairs, fsExists fs pr.1 = false) →
      buildClips env fs pairs = [] := by
  intro pairs
  induction pairs with
  | nil => intro _; rfl
  | cons pr rest ih =>
      intro h
      obtain ⟨img, aud⟩ := pr
      have h1 := h (img, aud) (List.mem_cons_self _ _)
      simp only [buildClips, h1, Bool.false_eq_true, if_false]
      exact ih (fun pr hpr => h pr (List.mem_cons_of_mem _ hpr))

theorem genAudios_silent (env : Env) (ci : Nat) :
    ∀ (ts : List String) (st : VGState) (i : Nat),
      (∀ t ∈ ts, isBlank t = true ∨ env.ttsSpeech t = none) →
      genAudios env ci st ts i = (ts.map (fun _ => ""), st) := by
  intro ts
  induction ts with
  | nil => intro st i _; rfl
  | cons t ts ih =>
      intro st i h
      have hg : generate_audio_for_slide env st t (slideId ci i) = ("", st) := by
        rcases h t (List.mem_cons_self _ _) with ht | ht
        · simp [generate_audio_for_slide, ht]
        · unfold generate_audio_for_slide
          by_cases hb : isBlank t <;> simp [hb, ht]
      simp only [genAudios, hg]
      rw [ih st (i + 1) (fun u hu => h u (List.mem_cons_of_mem _ hu))]
      rfl

theorem chunkSlicesAux_flatten {α : Type} (s : Nat) (hs : 1 ≤ s) :
    ∀ (fuel : Nat) (l : List α), l.length ≤ fuel →
      (chunkSlicesAux s fuel l).flatten = l := by
  intro fuel
  induction fuel with
  | zero =>
      intro l hl
      have h0 : l = [] := List.eq_nil_of_length_eq_zero (Nat.le_zero.mp hl)
      subst h0; rfl
  | succ fuel ih =>
      intro l hl
      cases l with
      | nil => rfl
      | cons a l =>
          simp only [chunkSlicesAux, List.flatten_cons]
          have hlen : ((a :: l).drop s).length ≤ fuel := by
            rw [List.length_drop]
            simp only [List.length_cons] at hl ⊢
            omega
          rw [ih ((a :: l).drop s) hlen]
          exact List.take_append_drop s (a :: l)

theorem chunkSlicesAux_ne_nil {α : Type} (s : Nat) (hs : 1 ≤ s) :
    ∀ (fuel : Nat) (l : List α), ∀ c ∈ chunkSlicesAux s fuel l, c ≠ [] := by
  intro fuel
  induction fuel with
  | zero => intro l c hc; simp [chunkSlicesAux] at hc
  | succ fuel ih =>
      intro l c hc
      cases l with
      | nil => simp [chunkSlicesAux] at hc
      | cons a l =>
          simp only [chunkSlicesAux] at hc
          rcases List.mem_cons.mp hc with hc | hc
          · subst hc
            obtain ⟨t, rfl⟩ := Nat.exists_eq_add_of_le hs
            simp [List.take_cons]
          · exact ih _ c hc

theorem process_chunk_fst (env : Env) (st : VGState) (imgs ts : List String) (idx : Nat) :
    (process_chunk env st imgs ts idx).1 = some (chunkVideoPath idx)
      ∨ (process_chunk env st imgs ts idx).1 = none := by
  simp only [process_chunk]
  by_cases hc : (buildClips env (genAudios env idx (registerTemp st (chunkVideoPath idx)) ts 0).2.fs
      (imgs.zip (genAudios env idx (registerTemp st (chunkVideoPath idx)) ts 0).1)).isEmpty
  · simp [hc]
  · by_cases hw : env.chunkWriteOk idx <;> simp [hc, hw]

theorem chunkContrib_cases (st : VGState) (r : Option String) (p : String)
    (hr : r = some p ∨ r = none) :
    chunkContrib st r = [] ∨ chunkContrib st r = [p] := by
  rcases hr with hr | hr <;> subst hr
  · by_cases hx : fsExists st.fs p <;> simp [chunkContrib, hx]
  · simp [chunkContrib]

theorem chunkLoopAux_sublist (env : Env) (s : Nat) :
    ∀ (fuel : Nat) (st : VGState) (imgs ts : List String) (idx : Nat),
      ∃ n, (chunkLoopAux env s fuel st imgs ts idx).1.Sublist
        ((List.range' idx n).map chunkVideoPath) := by
  intro fuel
  induction fuel with
  | zero => intro st imgs ts idx; exact ⟨0, by simp [chunkLoopAux]⟩
  | succ fuel ih =>
      intro st imgs ts idx
      cases imgs with
      | nil => exact ⟨0, by simp [chunkLoopAux]⟩
      | cons im imgs =>
          simp only [chunkLoopAux]
          obtain ⟨n, hn⟩ := ih (process_chunk env st ((im :: imgs).take s) (ts.take s) idx).2
            ((im :: imgs).drop s) (ts.drop s) (idx + 1)
          rcases chunkContrib_cases (process_chunk env st ((im :: imgs).take s) (ts.take s) idx).2
              (process_chunk env st ((im :: imgs).take s) (ts.take s) idx).1 (chunkVideoPath idx)
              (process_chunk_fst env st _ _ idx) with hco | hco
          · refine ⟨n + 1, ?_⟩
            rw [hco, List.nil_append, List.range'_succ idx n 1, List.map_cons]
            exact hn.cons _
          · refine ⟨n + 1, ?_⟩
            rw [hco, List.range'_succ idx n 1, List.map_cons, List.singleton_append]
            exact hn.cons₂ _

theorem fsExists_fsWrite_mono (fs : FS) (p c q : String) (h : fsExists fs q = true) :
    fsExists (fsWrite fs p c) q = true := by
  by_cases hq : q = p
  · subst hq
    have hne : q ≠ "" := by
      intro h0
      rw [h0] at h
      simp [fsExists] at h
    simp [fsExists, fsWrite, hne]
  · rw [fsExists_fsWrite_ne fs p c q hq]
    exact h

theorem gafs_fs_mono (env : Env) (st : VGState) (t sid q : String)
    (h : fsExists st.fs q = true) :
    fsExists (generate_audio_for_slide env st t sid).2.fs q = true := by
  unfold generate_audio_for_slide
  by_cases hb : isBlank t
  · simpa [hb] using h
  · rcases henv : env.ttsSpeech t with _ | bytes
    · simpa [hb, henv] using h
    · simp only [hb, henv, Bool.false_eq_true, if_false]
      simpa [registerTemp] using fsExists_fsWrite_mono st.fs (audioPath sid) bytes q h

theorem genAudios_fs_mono (env : Env) (ci : Nat) :
    ∀ (ts : List String) (st : VGState) (i : Nat) (q : String),
      fsExists st.fs q = true →
      fsExists (genAudios env ci st ts i).2.fs q = true := by
  intro ts
  induction ts with
  | nil => intro st i q h; exact h
  | cons t ts ih =>
      intro st i q h
      simp only [genAudios]
      exact ih _ _ q (gafs_fs_mono env st t (slideId ci i) q h)

theorem process_chunk_fs_mono (env : Env) (st : VGState) (imgs ts : List String)
    (idx : Nat) (q : String) (h : fsExists st.fs q = true) :
    fsExists (process_chunk env st imgs ts idx).2.fs q = true := by
  simp only [process_chunk]
  have h1 : fsExists (registerTemp st (chunkVideoPath idx)).fs q = true := h
  have h2 := genAudios_fs_mono env idx ts (registerTemp st (chunkVideoPath idx)) 0 q h1
  by_cases hc : (buildClips env (genAudios env idx (registerTemp st (chunkVideoPath idx)) ts 0).2.fs
      (imgs.zip (genAudios env idx (registerTemp st (chunkVideoPath idx)) ts 0).1)).isEmpty
  · simpa [hc] using h2
  · by_cases hw : env.chunkWriteOk idx
    · simp only [hc, hw, Bool.false_eq_true, if_false, if_true]
      exact fsExists_fsWrite_mono _ _ _ q h2
    · simpa [hc, hw] using h2

theorem chunkLoopAux_fs_mono (env : Env) (s : Nat) :
    ∀ (fuel : Nat) (st : VGState) (imgs ts : List String) (idx : Nat) (q : String),
      fsExists st.fs q = true →
      fsExists (chunkLoopAux env s fuel st imgs ts idx).2.fs q = true := by
  intro fuel
  induction fuel with
  | zero => intro st imgs ts idx q h; simpa [chunkLoopAux] using h
  | succ fuel ih =>
      intro st imgs ts idx q h
      cases imgs with
      | nil => simpa [chunkLoopAux] using h
      | cons im imgs =>
          simp only [chunkLoopAux]
          exact ih _ _ _ _ q (process_chunk_fs_mono env st _ _ idx q h)

theorem chunkContrib_mem (st : VGState) (r : Option String) (p : String)
    (h : p ∈ chunkContrib st r) : fsExists st.fs p = true := by
  rcases r with _ | q
  · cases h
  · simp only [chunkContrib] at h
    by_cases hx : fsExists st.fs q = true
    · rw [if_pos hx] at h
      rcases List.mem_singleton.mp h with rfl
      exact hx
    · rw [if_neg hx] at h
      cases h

theorem chunkLoopAux_consumed_exist (env : Env) (s : Nat) :
    ∀ (fuel : Nat) (st : VGState) (imgs ts : List String) (idx : Nat),
      ∀ p ∈ (chunkLoopAux env s fuel st imgs ts idx).1,
        fsExists (chunkLoopAux env s fuel st imgs ts idx).2.fs p = true := by
  intro fuel
  induction fuel with
  | zero => intro st imgs ts idx p hp; simp [chunkLoopAux] at hp
  | succ fuel ih =>
      intro st imgs ts idx p hp
      cases imgs with
      | nil => simp [chunkLoopAux] at hp
      | cons im imgs =>
          simp only [chunkLoopAux] at hp ⊢
          rcases List.mem_append.mp hp with hp | hp
          · exact chunkLoopAux_fs_mono env s fuel _ _ _ _ p
              (chunkContrib_mem _ _ p hp)
          · exact ih _ _ _ _ p hp

theorem gafs_ci (env : Env) (st : VGState) (t sid : String) :
    (generate_audio_for_slide env st t sid).2.concatInput = st.concatInput := by
  unfold generate_audio_for_slide
  by_cases hb : isBlank t
  · simp [hb]
  · rcases henv : env.ttsSpeech t with _ | bytes <;> simp [hb, henv, registerTemp]

theorem genAudios_ci (env : Env) (ci : Nat) :
    ∀ (ts : List String) (st : VGState) (i : Nat),
      (genAudios env ci st ts i).2.concatInput = st.concatInput := by
  intro ts
  induction ts with
  | nil => intro st i; rfl
  | cons t ts ih =>
      intro st i
      simp only [genAudios]
      rw [ih, gafs_ci]

theorem process_chunk_ci (env : Env) (st : VGState) (imgs ts : List String) (idx : Nat) :
    (process_chunk env st imgs ts idx).2.concatInput = st.concatInput := by
  simp only [process_chunk]
  split
  · exact genAudios_ci env idx ts _ 0
  · split
    · exact genAudios_ci env idx ts _ 0
    · exact genAudios_ci env idx ts _ 0

theorem chunkLoopAux_ci (env : Env) (s : Nat) :
    ∀ (fuel : Nat) (st : VGState) (imgs ts : List String) (idx : Nat),
      (chunkLoopAux env s fuel st imgs ts idx).2.concatInput = st.concatInput := by
  intro fuel
  induction fuel with
  | zero => intro st imgs ts idx; simp [chunkLoopAux]
  | succ fuel ih =>
      intro st imgs ts idx
      cases imgs with
      | nil => simp [chunkLoopAux]
      | cons im imgs =>
          simp only [chunkLoopAux]
          rw [ih, process_chunk_ci]

theorem combine_with_moviepy_ci (st : VGState) (chunk_paths : List String) (out : String) :
    (combine_with_moviepy st chunk_paths out).2.concatInput = st.concatInput := by
  unfold combine_with_moviepy
  split
  · split
    · rfl
    · rfl
  · rfl

theorem fallback_twice_ci (st : VGState) (chunk_paths : List String) (out : String) :
    (fallback_twice st chunk_paths out).2.concatInput = st.concatInput := by
  unfold fallback_twice
  rcases hr : (combine_with_moviepy st chunk_paths out).1 with e | u
  · simp only [hr]
    rw [combine_with_moviepy_ci, combine_with_moviepy_ci]
  · simp only [hr]
    rw [combine_with_moviepy_ci]

theorem combine_chunks_ci (env : Env) (st : VGState) (chunk_paths : List String)
    (out : String) :
    (combine_chunks env st chunk_paths out).2.concatInput = some chunk_paths := by
  unfold combine_chunks
  match chunk_paths with
  | [] => rfl
  | [p] => rfl
  | p :: q :: rest =>
      rcases hff : env.ffmpegConcatExit with _ | rc
      · simp only [hff]
        rw [combine_with_moviepy_ci]
        rfl
      · match rc with
        | 0 => simp only [hff]; rfl
        | rc + 1 =>
            simp only [hff]
            rw [fallback_twice_ci]
            rfl

theorem calc_chunk_pos (n : Nat) (h : 1 ≤ n) : 1 ≤ calculate_optimal_chunk_size n := by
  by_cases h5 : n ≤ 5
  · simp only [calculate_optimal_chunk_size, if_pos h5]; omega
  · by_cases h15 : n ≤ 15 <;> simp [calculate_optimal_chunk_size, h5, h15]

theorem process_chunk_silent (env : Env) (st : VGState) (imgs ts : List String) (idx : Nat)
    (hfs : st.fs = [])
    (hts : ∀ t ∈ ts, isBlank t = true ∨ env.ttsSpeech t = none) :
    process_chunk env st imgs ts idx
      = (some (chunkVideoPath idx), registerTemp st (chunkVideoPath idx)) := by
  have hga := genAudios_silent env idx ts (registerTemp st (chunkVideoPath idx)) 0 hts
  have hclips : ∀ auds : List String,
      buildClips env (registerTemp st (chunkVideoPath idx)).fs (imgs.zip auds) = [] := by
    intro auds
    refine buildClips_nil env _ _ (fun pr hpr => ?_)
    show fsExists st.fs pr.1 = false
    rw [hfs]
    exact fsExists_nil _
  simp [process_chunk, hga, hclips]

theorem chunkLoopAux_silent (env : Env) (s : Nat) :
    ∀ (fuel : Nat) (st : VGState) (imgs ts : List String) (idx : Nat),
      st.fs = [] →
      (∀ t ∈ ts, isBlank t = true ∨ env.ttsSpeech t = none) →
      (chunkLoopAux env s fuel st imgs ts idx).1 = []
      ∧ (chunkLoopAux env s fuel st imgs ts idx).2.fs = [] := by
  intro fuel
  induction fuel with
  | zero => intro st imgs ts idx hfs _; exact ⟨by simp [chunkLoopAux], by simp [chunkLoopAux, hfs]⟩
  | succ fuel ih =>
      intro st imgs ts idx hfs hts
      cases imgs with
      | nil => exact ⟨by simp [chunkLoopAux], by simp [chunkLoopAux, hfs]⟩
      | cons im imgs =>
          simp only [chunkLoopAux]
          have hpc := process_chunk_silent env st ((im :: imgs).take s) (ts.take s) idx hfs
            (fun t ht => hts t (List.take_subset s ts ht))
          rw [hpc]
          have hcontrib : chunkContrib (registerTemp st (chunkVideoPath idx))
              (some (chunkVideoPath idx)) = [] := by
            have : fsExists (registerTemp st (chunkVideoPath idx)).fs (chunkVideoPath idx)
                = false := by
              show fsExists st.fs (chunkVideoPath idx) = false
              rw [hfs]; exact fsExists_nil _
            simp [chunkContrib, this]
          obtain ⟨h1, h2⟩ := ih (registerTemp st (chunkVideoPath idx)) ((im :: imgs).drop s)
            (ts.drop s) (idx + 1) hfs (fun t ht => hts t (List.drop_subset s ts ht))
          rw [hcontrib, h1]
          exact ⟨rfl, h2⟩

theorem create_video_no_artifacts (env : Env) (st : VGState) (imgs ts : List String)
    (fn : String) (hne : imgs ≠ []) (hfs : st.fs = [])
    (hts : ∀ t ∈ ts, isBlank t = true ∨ env.ttsSpeech t = none) :
    (create_video env st imgs ts fn).1 = .ok (outputDir ++ "/" ++ fn)
    ∧ (create_video env st imgs ts fn).2.fs = [] := by
  have hs : 1 ≤ calculate_optimal_chunk_size imgs.length :=
    calc_chunk_pos imgs.length (by
      cases imgs with
      | nil => exact absurd rfl hne
      | cons a l => simp)
  have hs0 : ¬ calculate_optimal_chunk_size imgs.length = 0 := by omega
  obtain ⟨h1, h2⟩ := chunkLoopAux_silent env (calculate_optimal_chunk_size imgs.length)
    imgs.length st imgs ts 0 hfs hts
  unfold create_video
  rw [if_neg hs0]
  unfold chunkLoop
  simp only [h1, List.isEmpty_nil, if_true]
  refine ⟨trivial, ?_⟩
  show ((chunkLoopAux env (calculate_optimal_chunk_size imgs.length)
      imgs.length st imgs ts 0).2.temp_files).foldl fsRemove
      (chunkLoopAux env (calculate_optimal_chunk_size imgs.length)
        imgs.length st imgs ts 0).2.fs = []
  rw [h2]
  exact foldl_fsRemove_nil _

theorem load_save (s : JobStore) (id : String) (r : JobRecord) :
    load_job_status (save_job_status s id r) id = r := by
  simp [load_job_status, save_job_status]

/-!
Claim theorems.
-/

/-- C1 (code bug): with two chunk videos on disk and the multiplexing tool exiting
non-zero, the fallback re-encode path does not produce a final artifact: the module
never imports VideoFileClip, so _combine_with_moviepy raises NameError on the first
existing chunk, the except branch retries it with the same result, and _combine_chunks
propagates the NameError with no final output written. -/
theorem fallback_reencode_never_runs :
    videoGeneratorModuleNames.contains "VideoFileClip" = false
    ∧ c1Run.1 = .error (.nameError "VideoFileClip")
    ∧ fsExists c1Run.2.fs (outputDir ++ "/final.mp4") = false := by decide

/-- C2 (counterexample): a six-slide run whose ffmpeg concat exits non-zero ends with
_combine_chunks raising NameError; create_video propagates it without reaching the
cleanup call, and the registered chunk artifact /tmp/chunk_0.mp4 still exists on
disk after the run. -/
theorem cleanup_skipped_on_error_cex :
    c2Run.1 = .error (.nameError "VideoFileClip")
    ∧ "/tmp/chunk_0.mp4" ∈ c2Run.2.registered
    ∧ fsExists c2Run.2.fs "/tmp/chunk_0.mp4" = true := by decide

/-- C3 (counterexample): for total slide count 0 the planner returns chunk size 0,
not a size of at least 1, and create_video on an empty deck raises the range step
ValueError instead of proceeding to no-artifacts handling. -/
theorem chunk_size_zero_cex :
    calculate_optimal_chunk_size 0 = 0
    ∧ ¬ 1 ≤ calculate_optimal_chunk_size 0
    ∧ c3Run.1 = .error (.valueError "range() arg 3 must not be zero") := by decide

/-- C3 (amended): for every total slide count N of at least 1 the planner returns a
chunk size S of at least 1, with S = N when N is at most 5, S = 5 when 5 < N and N is
at most 15, and S = 8 when N > 15, and the planner itself raises no errors; for N = 0
it returns 0 and create_video raises the range step-zero ValueError rather than
proceeding to no-artifacts handling. -/
theorem chunk_size_policy (n : Nat) :
    (1 ≤ n → 1 ≤ calculate_optimal_chunk_size n)
    ∧ (n ≤ 5 → calculate_optimal_chunk_size n = n)
    ∧ (5 < n → n ≤ 15 → calculate_optimal_chunk_size n = 5)
    ∧ (15 < n → calculate_optimal_chunk_size n = 8)
    ∧ calculate_optimal_chunk_size 0 = 0
    ∧ (∀ (env : Env) (st : VGState) (ts : List String) (fn : String),
        (create_video env st [] ts fn).1
          = .error (.valueError "range() arg 3 must not be zero")) := by
  refine ⟨?_, ?_, ?_, ?_, rfl, ?_⟩
  · intro h
    by_cases h5 : n ≤ 5
    · simp only [calculate_optimal_chunk_size, if_pos h5]; omega
    · by_cases h15 : n ≤ 15 <;>
        simp [calculate_optimal_chunk_size, h5, h15]
  · intro h; simp [calculate_optimal_chunk_size, h]
  · intro h1 h2
    have h5 : ¬ n ≤ 5 := by omega
    simp [calculate_optimal_chunk_size, h5, h2]
  · intro h
    have h5 : ¬ n ≤ 5 := by omega
    have h15 : ¬ n ≤ 15 := by omega
    simp [calculate_optimal_chunk_size, h5, h15]
  · intro env st ts fn; rfl

/-- Witness for C3: the planner at 3, 10 and 16 slides, and the empty-deck run. -/
theorem chunk_size_policy_witness :
    1 ≤ calculate_optimal_chunk_size 3
    ∧ calculate_optimal_chunk_size 3 = 3
    ∧ calculate_optimal_chunk_size 10 = 5
    ∧ calculate_optimal_chunk_size 16 = 8
    ∧ (create_video envPlain emptyState [] [] "final.mp4").1
        = .error (.valueError "range() arg 3 must not be zero") :=
  ⟨(chunk_size_policy 3).1 (by decide),
   (chunk_size_policy 3).2.1 (by decide),
   (chunk_size_policy 10).2.2.1 (by decide) (by decide),
   (chunk_size_policy 16).2.2.2.1 (by decide),
   (chunk_size_policy 0).2.2.2.2.2 envPlain emptyState [] "final.mp4"⟩

/-- C5: a slide with empty or whitespace-only narration, or whose synthesis raises,
yields "no audio" (the empty path, state unchanged) rather than an error; the empty
path never exists, so the clip built for such a slide is silent with duration exactly
3.0; and the duration probe returns the 3.0 default whenever ffprobe exits non-zero
or raises (which covers a missing file) or its output fails to parse. -/
theorem slide_degradable_defaults :
    (∀ (env : Env) (st : VGState) (t sid : String), isBlank t = true →
        generate_audio_for_slide env st t sid = ("", st))
    ∧ (∀ (env : Env) (st : VGState) (t sid : String), env.ttsSpeech t = none →
        generate_audio_for_slide env st t sid = ("", st))
    ∧ (∀ fs : FS, fsExists fs "" = false)
    ∧ (∀ (env : Env) (fs : FS) (img aud : String), fsExists fs img = true →
        fsExists fs aud = false →
        buildClips env fs [(img, aud)] = [{ image := img, duration := 3, audio := none }])
    ∧ (∀ (env : Env) (p : String), env.ffprobe p = none ∨ env.ffprobe p = some none →
        get_audio_duration env p = 3) := by
  refine ⟨?_, ?_, ?_, ?_, ?_⟩
  · intro env st t sid h; simp [generate_audio_for_slide, h]
  · intro env st t sid h
    unfold generate_audio_for_slide
    by_cases hb : isBlank t <;> simp [hb, h]
  · intro fs; simp [fsExists]
  · intro env fs img aud h1 h2; simp [buildClips, h1, h2]
  · intro env p h; rcases h with h | h <;> simp [get_audio_duration, h]

/-- Witness for C5 at concrete inputs: a whitespace transcript, a raising
synthesizer, the empty audio path, a one-slide clip, and a failing probe. -/
theorem slide_degradable_defaults_witness :
    generate_audio_for_slide envPlain emptyState " " "chunk0_slide0" = ("", emptyState)
    ∧ generate_audio_for_slide envPlain emptyState "text" "chunk0_slide0" = ("", emptyState)
    ∧ fsExists sixImageFs "" = false
    ∧ buildClips envPlain sixImageFs [("a.png", "")]
        = [{ image := "a.png", duration := 3, audio := none }]
    ∧ get_audio_duration envPlain "/tmp/x.mp3" = 3 :=
  ⟨slide_degradable_defaults.1 envPlain emptyState " " "chunk0_slide0" (by decide),
   slide_degradable_defaults.2.1 envPlain emptyState "text" "chunk0_slide0" rfl,
   slide_degradable_defaults.2.2.1 sixImageFs,
   slide_degradable_defaults.2.2.2.1 envPlain sixImageFs "a.png" "" (by decide) (by decide),
   slide_degradable_defaults.2.2.2.2 envPlain "/tmp/x.mp3" (Or.inl rfl)⟩

/-- C6: the clips a chunk renders are exactly the slides whose image path exists, in
order (missing-image slides are excluded entirely); and a chunk all of whose slides
are excluded returns normally with its chunk path never written, so the create_video
filter contributes no artifact for it to the final join and the job continues. -/
theorem missing_image_exclusion :
    (∀ (env : Env) (fs : FS) (pairs : List (String × String)),
        (buildClips env fs pairs).map (fun c => c.image)
          = (pairs.map Prod.fst).filter (fun i => fsExists fs i))
    ∧ (∀ (env : Env) (st : VGState) (imgs ts : List String) (idx : Nat),
        (∀ t ∈ ts, isBlank t = true ∨ env.ttsSpeech t = none) →
        (∀ i ∈ imgs, fsExists st.fs i = false) →
        process_chunk env st imgs ts idx
            = (some (chunkVideoPath idx), registerTemp st (chunkVideoPath idx))
          ∧ (fsExists st.fs (chunkVideoPath idx) = false →
              chunkContrib (process_chunk env st imgs ts idx).2
                (process_chunk env st imgs ts idx).1 = [])) := by
  constructor
  · exact buildClips_images
  · intro env st imgs ts idx hts himgs
    have hga : genAudios env idx (registerTemp st (chunkVideoPath idx)) ts 0
        = (ts.map (fun _ => ""), registerTemp st (chunkVideoPath idx)) :=
      genAudios_silent env idx ts _ 0 hts
    have hclips : ∀ auds : List String,
        buildClips env (registerTemp st (chunkVideoPath idx)).fs (imgs.zip auds) = [] :=
      fun auds => buildClips_nil env _ _
        (fun pr hpr => himgs pr.1 (List.of_mem_zip hpr).1)
    have hpc : process_chunk env st imgs ts idx
        = (some (chunkVideoPath idx), registerTemp st (chunkVideoPath idx)) := by
      simp [process_chunk, hga, hclips]
    refine ⟨hpc, fun hvp => ?_⟩
    rw [hpc]
    simp [chunkContrib, registerTemp, hvp]

/-- Witness for C6: one chunk whose clip list drops the missing image, and one chunk
whose only slide image is missing. -/
theorem missing_image_exclusion_witness :
    ((buildClips envPlain sixImageFs [("a.png", ""), ("zz.png", "")]).map (fun c => c.image)
        = ([("a.png", ""), ("zz.png", "")].map Prod.fst).filter (fun i => fsExists sixImageFs i))
    ∧ process_chunk envPlain emptyState ["zz.png"] [""] 0
        = (some (chunkVideoPath 0), registerTemp emptyState (chunkVideoPath 0))
    ∧ chunkContrib (process_chunk envPlain emptyState ["zz.png"] [""] 0).2
        (process_chunk envPlain emptyState ["zz.png"] [""] 0).1 = [] :=
  ⟨missing_image_exclusion.1 envPlain sixImageFs [("a.png", ""), ("zz.png", "")],
   (missing_image_exclusion.2 envPlain emptyState ["zz.png"] [""] 0
      (by decide) (by decide)).1,
   (missing_image_exclusion.2 envPlain emptyState ["zz.png"] [""] 0
      (by decide) (by decide)).2 (by decide)⟩

/-- C7: handed exactly one chunk path with content c, the Concatenator returns
successfully having renamed the chunk to the output path: the output holds exactly
the chunk's bytes, the chunk path is gone, and the ffmpeg multiplexing tool was
never invoked. -/
theorem single_chunk_rename (env : Env) (st : VGState) (p out c : String)
    (hp : fsRead st.fs p = some c) (hne : p ≠ out) :
    (combine_chunks env st [p] out).1 = .ok ()
    ∧ fsRead (combine_chunks env st [p] out).2.fs out = some c
    ∧ fsExists (combine_chunks env st [p] out).2.fs p = false
    ∧ (combine_chunks env st [p] out).2.ffmpegCalls = st.ffmpegCalls := by
  refine ⟨rfl, ?_, ?_, rfl⟩
  · show fsRead (fsRename st.fs p out) out = some c
    unfold fsRename
    rw [hp]
    exact fsRead_fsWrite_self _ _ _
  · show fsExists (fsRename st.fs p out) p = false
    unfold fsRename
    rw [hp, fsExists_fsWrite_ne _ _ _ _ hne]
    exact fsExists_fsRemove_self _ _

/-- Witness for C7: renaming the single chunk /tmp/chunk_0.mp4 with bytes AAA. -/
theorem single_chunk_rename_witness :
    (combine_chunks envPlain twoChunkSt [chunkVideoPath 0] (outputDir ++ "/final.mp4")).1 = .ok ()
    ∧ fsRead (combine_chunks envPlain twoChunkSt [chunkVideoPath 0]
        (outputDir ++ "/final.mp4")).2.fs (outputDir ++ "/final.mp4") = some "AAA"
    ∧ fsExists (combine_chunks envPlain twoChunkSt [chunkVideoPath 0]
        (outputDir ++ "/final.mp4")).2.fs (chunkVideoPath 0) = false
    ∧ (combine_chunks envPlain twoChunkSt [chunkVideoPath 0]
        (outputDir ++ "/final.mp4")).2.ffmpegCalls = twoChunkSt.ffmpegCalls :=
  single_chunk_rename envPlain twoChunkSt (chunkVideoPath 0) (outputDir ++ "/final.mp4")
    "AAA" (by decide) (by decide)

/-- C8: the chunk slices partition the slide list exactly (their concatenation is
the slide list, and none is empty); the assembled list handed on is an ordered
sublist of the chunk paths by increasing chunk index (a chunk that failed to
materialize is simply absent, never substituted); every path in it exists on disk at
the end of assembly; and create_video hands the Concatenator exactly that list — no
invocation at all when it is empty. -/
theorem concat_consumes_assembled (env : Env) (st : VGState) (imgs ts : List String)
    (fn : String) (hne : imgs ≠ []) (hci : st.concatInput = none) :
    (chunkSlices (calculate_optimal_chunk_size imgs.length) imgs).flatten = imgs
    ∧ (∀ c ∈ chunkSlices (calculate_optimal_chunk_size imgs.length) imgs, c ≠ [])
    ∧ (∃ n, (chunkLoop env (calculate_optimal_chunk_size imgs.length) st imgs ts).1.Sublist
        ((List.range' 0 n).map chunkVideoPath))
    ∧ (∀ p ∈ (chunkLoop env (calculate_optimal_chunk_size imgs.length) st imgs ts).1,
        fsExists (chunkLoop env (calculate_optimal_chunk_size imgs.length) st imgs ts).2.fs p
          = true)
    ∧ ((chunkLoop env (calculate_optimal_chunk_size imgs.length) st imgs ts).1 = [] →
        (create_video env st imgs ts fn).2.concatInput = none)
    ∧ ((chunkLoop env (calculate_optimal_chunk_size imgs.length) st imgs ts).1 ≠ [] →
        (create_video env st imgs ts fn).2.concatInput
          = some (chunkLoop env (calculate_optimal_chunk_size imgs.length) st imgs ts).1) := by
  have hs : 1 ≤ calculate_optimal_chunk_size imgs.length :=
    calc_chunk_pos imgs.length (by
      cases imgs with
      | nil => exact absurd rfl hne
      | cons a l => simp)
  have hs0 : ¬ calculate_optimal_chunk_size imgs.length = 0 := by omega
  refine ⟨?_, ?_, ?_, ?_, ?_, ?_⟩
  · exact chunkSlicesAux_flatten _ hs imgs.length imgs le_rfl
  · exact chunkSlicesAux_ne_nil _ hs imgs.length imgs
  · exact chunkLoopAux_sublist env _ imgs.length st imgs ts 0
  · exact chunkLoopAux_consumed_exist env _ imgs.length st imgs ts 0
  · intro hlp
    unfold create_video
    rw [if_neg hs0]
    simp only [hlp, List.isEmpty_nil, if_true]
    show (chunkLoop env (calculate_optimal_chunk_size imgs.length) st imgs ts).2.concatInput
      = none
    unfold chunkLoop
    rw [chunkLoopAux_ci]
    exact hci
  · intro hlp
    unfold create_video
    rw [if_neg hs0]
    have hie : (chunkLoop env (calculate_optimal_chunk_size imgs.length) st imgs ts).1.isEmpty
        = false := by
      cases hl : (chunkLoop env (calculate_optimal_chunk_size imgs.length) st imgs ts).1 with
      | nil => exact absurd hl hlp
      | cons a l => rfl
    simp only [hie, Bool.false_eq_true, if_false]
    rcases hcb : (combine_chunks env
        (chunkLoop env (calculate_optimal_chunk_size imgs.length) st imgs ts).2
        (chunkLoop env (calculate_optimal_chunk_size imgs.length) st imgs ts).1
        (outputDir ++ "/" ++ fn)).1 with e | u
    · show (combine_chunks env _ _ _).2.concatInput = _
      rw [combine_chunks_ci]
    · show (cleanup_temp_files (combine_chunks env _ _ _).2).concatInput = _
      show (combine_chunks env _ _ _).2.concatInput = _
      rw [combine_chunks_ci]

/-- Witness for C8: the six-slide run, whose two chunk slices concatenate back to
the slide list and whose Concatenator input is exactly the assembled list. -/
theorem concat_consumes_assembled_witness :
    (chunkSlices (calculate_optimal_chunk_size sixImages.length) sixImages).flatten = sixImages
    ∧ (create_video envPlain sixSt sixImages sixEmptyTexts "final.mp4").2.concatInput
        = some (chunkLoop envPlain (calculate_optimal_chunk_size sixImages.length)
            sixSt sixImages sixEmptyTexts).1 :=
  ⟨(concat_consumes_assembled envPlain sixSt sixImages sixEmptyTexts "final.mp4"
      (by decide) rfl).1,
   (concat_consumes_assembled envPlain sixSt sixImages sixEmptyTexts "final.mp4"
      (by decide) rfl).2.2.2.2.2 (by decide)⟩

/-- C9: polling a job id with no stored record returns the record with status
unknown and the not-found message, rather than raising. -/
theorem unknown_job_record (store : JobStore) (job_id : String)
    (h : store.find? (fun e => e.1 == job_id) = none) :
    get_job_status store job_id = unknownRecord
    ∧ (get_job_status store job_id).status = "unknown"
    ∧ (get_job_status store job_id).message = "Job not found" := by
  unfold get_job_status load_job_status
  rw [h]
  exact ⟨rfl, rfl, rfl⟩

/-- C2 (amended): when create_video completes normally (the combine step did not
raise), the cleanup step runs and afterwards no path ever registered in the cleanup
list exists on disk; the cleanup is not a finally block, so this holds for normal
completion only (see the counterexample for a failing run). -/
theorem cleanup_on_normal_completion (env : Env) (st : VGState)
    (imgs ts : List String) (fn p : String)
    (h : st.temp_files = st.registered)
    (hok : (create_video env st imgs ts fn).1 = .ok p) :
    ∀ q ∈ (create_video env st imgs ts fn).2.registered,
      fsExists (create_video env st imgs ts fn).2.fs q = false := by
  unfold create_video at hok ⊢
  by_cases hs : calculate_optimal_chunk_size imgs.length = 0
  · rw [if_pos hs] at hok
    cases hok
  · rw [if_neg hs] at hok ⊢
    by_cases he : (chunkLoop env (calculate_optimal_chunk_size imgs.length) st imgs ts).1.isEmpty
    · simp only [he, if_true] at hok ⊢
      exact cleanup_clears_registered _
        (chunkLoopAux_tr env _ imgs.length st imgs ts 0 h)
    · simp only [he, Bool.false_eq_true, if_false] at hok ⊢
      rcases hcb : (combine_chunks env
          (chunkLoop env (calculate_optimal_chunk_size imgs.length) st imgs ts).2
          (chunkLoop env (calculate_optimal_chunk_size imgs.length) st imgs ts).1
          (outputDir ++ "/" ++ fn)).1 with e | u
      · rw [hcb] at hok
        exact Except.noConfusion hok
      · exact cleanup_clears_registered _
          (combine_chunks_tr env _ _ _
            (chunkLoopAux_tr env _ imgs.length st imgs ts 0 h))

/-- Witness for C2: a successful six-slide run, after which the registered chunk
artifact /tmp/chunk_0.mp4 no longer exists. -/
theorem cleanup_on_normal_completion_witness :
    (create_video envPlain sixSt sixImages sixEmptyTexts "final.mp4").1
        = .ok (outputDir ++ "/final.mp4")
    ∧ fsExists (create_video envPlain sixSt sixImages sixEmptyTexts "final.mp4").2.fs
        "/tmp/chunk_0.mp4" = false :=
  ⟨by decide,
   cleanup_on_normal_completion envPlain sixSt sixImages sixEmptyTexts "final.mp4"
     (outputDir ++ "/final.mp4") rfl (by decide) "/tmp/chunk_0.mp4" (by decide)⟩

/-- C4: over a successful run the progress values written to the job store are
exactly 0, 10, 30, 50, 70, 100, written at the stage boundaries in that order —
a non-decreasing sequence drawn from the milestone set; a run hitting an unhandled
exception in any stage ends with a final record of status error and progress 0. -/
theorem job_progress_profile (penv : PipeEnv) (vst : VGState) (job_id : String) :
    (stagesOk penv vst job_id = true →
      progressesOf (jobTrace penv vst job_id) = [0, 10, 30, 50, 70, 100]
      ∧ List.Chain' (· ≤ ·) (progressesOf (jobTrace penv vst job_id))
      ∧ ∀ p ∈ progressesOf (jobTrace penv vst job_id), p ∈ [0, 10, 30, 50, 70, 100])
    ∧ (stagesOk penv vst job_id = false →
      ∃ r, (jobTrace penv vst job_id).getLast? = some r
        ∧ r.status = "error" ∧ r.progress = some 0) := by
  rcases hx : penv.extractText with e | ts0
  · refine ⟨fun hok => ?_, fun _ => ?_⟩
    · simp [stagesOk, hx] at hok
    · refine ⟨errorRecord job_id e, ?_, rfl, rfl⟩
      simp [jobTrace, process_pptx_background, hx]
  · rcases hy : penv.genTranscript ts0 with e | tr
    · refine ⟨fun hok => ?_, fun _ => ?_⟩
      · simp [stagesOk, hx, hy] at hok
      · refine ⟨errorRecord job_id e, ?_, rfl, rfl⟩
        simp [jobTrace, process_pptx_background, hx, hy]
    · rcases hz : penv.extractImages with e | imgs
      · refine ⟨fun hok => ?_, fun _ => ?_⟩
        · simp [stagesOk, hx, hy, hz] at hok
        · refine ⟨errorRecord job_id e, ?_, rfl, rfl⟩
          simp [jobTrace, process_pptx_background, hx, hy, hz]
      · rcases hv : (create_video penv.videoEnv vst imgs tr (job_id ++ ".mp4")).1 with e | vp
        · refine ⟨fun hok => ?_, fun _ => ?_⟩
          · simp [stagesOk, hx, hy, hz, hv] at hok
          · refine ⟨errorRecord job_id (pyErrorStr e), ?_, rfl, rfl⟩
            simp [jobTrace, process_pptx_background, hx, hy, hz, hv]
        · refine ⟨fun _ => ⟨?_, ?_, ?_⟩, fun hbad => ?_⟩
          · simp [jobTrace, process_pptx_background, hx, hy, hz, hv, progressesOf,
              initialRecord]
          · simp only [jobTrace, process_pptx_background, hx, hy, hz, hv, progressesOf,
              initialRecord]
            simp [List.filterMap]
          · simp only [jobTrace, process_pptx_background, hx, hy, hz, hv, progressesOf,
              initialRecord]
            simp [List.filterMap]
          · simp [stagesOk, hx, hy, hz, hv] at hbad

/-- Witness for C4: a run whose stages all succeed (over an empty filesystem, so the
one-slide chunk renders nothing and create_video still returns normally), and a run
whose extraction stage raises. -/
theorem job_progress_profile_witness :
    progressesOf (jobTrace pipeOkEnv emptyState "aventra_1") = [0, 10, 30, 50, 70, 100]
    ∧ (∃ r, (jobTrace pipeFailEnv emptyState "aventra_1").getLast? = some r
        ∧ r.status = "error" ∧ r.progress = some 0) :=
  ⟨((job_progress_profile pipeOkEnv emptyState "aventra_1").1 (by decide)).1,
   (job_progress_profile pipeFailEnv emptyState "aventra_1").2 (by decide)⟩

/-- C10: when no chunk produces a video (here: an empty filesystem, so every slide
image path is missing, with silent narration), create_video performs no concatenation
yet returns the output path with nothing written there; the background task then
records the job as completed with progress 100 and that dangling video_path; and the
download endpoint for the job answers 404 "Video file not found" rather than a video. -/
theorem completed_job_dangling_video (penv : PipeEnv) (vst : VGState) (job_id : String)
    (store : JobStore) (ts0 tr imgs : List String)
    (hx : penv.extractText = .ok ts0)
    (hy : penv.genTranscript ts0 = .ok tr)
    (hz : penv.extractImages = .ok imgs)
    (hne : imgs ≠ [])
    (hfs : vst.fs = [])
    (hts : ∀ t ∈ tr, isBlank t = true ∨ penv.videoEnv.ttsSpeech t = none) :
    (create_video penv.videoEnv vst imgs tr (job_id ++ ".mp4")).1
        = .ok (outputDir ++ "/" ++ (job_id ++ ".mp4"))
    ∧ (∃ r, (process_pptx_background penv vst job_id).1.getLast? = some r
        ∧ r.status = "completed" ∧ r.progress = some 100
        ∧ r.video_path = some (outputDir ++ "/" ++ (job_id ++ ".mp4")))
    ∧ fsExists (process_pptx_background penv vst job_id).2.fs
        (outputDir ++ "/" ++ (job_id ++ ".mp4")) = false
    ∧ download_video (storeAfterRun store job_id (jobTrace penv vst job_id))
        (process_pptx_background penv vst job_id).2.fs job_id
        = .error (404, "Video file not found") := by
  obtain ⟨hcv1, hcv2⟩ := create_video_no_artifacts penv.videoEnv vst imgs tr
    (job_id ++ ".mp4") hne hfs hts
  refine ⟨hcv1, ?_, ?_, ?_⟩
  · simp only [process_pptx_background, hx, hy, hz, hcv1]
    exact ⟨_, rfl, rfl, rfl, rfl⟩
  · simp only [process_pptx_background, hx, hy, hz, hcv1]
    rw [hcv2]
    exact fsExists_nil _
  · simp only [download_video, storeAfterRun, jobTrace, process_pptx_background,
      hx, hy, hz, hcv1, List.foldl]
    rw [load_save]
    simp [hcv2, fsExists_nil]

/-- Witness for C10: a one-slide job over an empty filesystem, recorded completed
while its download 404s. -/
theorem completed_job_dangling_video_witness :
    (create_video pipeOkEnv.videoEnv emptyState ["slide1.png"] [""] ("aventra_1" ++ ".mp4")).1
        = .ok (outputDir ++ "/" ++ ("aventra_1" ++ ".mp4"))
    ∧ download_video (storeAfterRun [] "aventra_1" (jobTrace pipeOkEnv emptyState "aventra_1"))
        (process_pptx_background pipeOkEnv emptyState "aventra_1").2.fs "aventra_1"
        = .error (404, "Video file not found") :=
  ⟨(completed_job_dangling_video pipeOkEnv emptyState "aventra_1" [] ["hello"] [""]
      ["slide1.png"] rfl rfl rfl (by decide) rfl (by decide)).1,
   (completed_job_dangling_video pipeOkEnv emptyState "aventra_1" [] ["hello"] [""]
      ["slide1.png"] rfl rfl rfl (by decide) rfl (by decide)).2.2.2⟩

/-- Witness for C9: polling an empty store. -/
theorem unknown_job_record_witness :
    get_job_status [] "aventra_0" = unknownRecord
    ∧ (get_job_status [] "aventra_0").status = "unknown"
    ∧ (get_job_status [] "aventra_0").message = "Job not found" :=
  unknown_job_record [] "aventra_0" rfl

end PCAI
